import Mathlib

/-!
Verification development for the flowforge-nexus workflow/saga engines.

The TypeScript sources are shallowly embedded as executable Lean
definitions:
  * the data model of `src/types` (WorkflowDefinition, WorkflowStep,
    WorkflowTrigger, WorkflowExecution, SagaDefinition, ...);
  * the registry validator (`WorkflowRegistry.validateWorkflow`,
    `hasCircularDependencies`, `findOrphanedSteps`);
  * the workflow engine walk (`WorkflowEngine.executeWorkflow`,
    `executeWorkflowSteps`, `executeStep`, `processNextSteps`,
    `findPendingSteps`, `handleStepError`, `cancelExecution`);
  * the saga engine (`SagaEngine.startSaga`, `executeSaga`,
    `handleStepFailure`, `executeBackwardCompensation`, ...).

Conventions:
  * TypeScript `Date` values become `Int` timestamps supplied explicitly.
  * `throw` / exceptions become an `Option String` error component that is
    returned alongside the mutated state (exceptions in the source do not
    roll back mutations of the shared execution record, so the state must
    survive an error).
  * External collaborators (step executor, compensation manager) are
    oracle parameters: total functions from the step/action to an
    `Except`-style outcome.
  * `async`/`await` interleaving with `cancelExecution` is modelled by a
    schedule parameter: after every awaited step execution the schedule
    may invoke the (faithfully embedded) `cancelExecution` body, mirroring
    a cancellation request landing at that await boundary.
  * Unbounded recursion (the pending-step queue can grow, error handlers
    can chain) is fuel-indexed.
-/

deriving instance DecidableEq for Except

namespace FlowForge

/-- `WorkflowTrigger` from src/types: (type, eventType, conditions?). -/
structure WorkflowTrigger where
  type : String
  eventType : String
  conditions : Option (List String) := none
  deriving Repr, DecidableEq

/-- `RetryPolicy` from src/types. -/
inductive Backoff | fixed | exponential | linear
  deriving Repr, DecidableEq

/-- `RetryPolicy` from src/types: maxAttempts, backoff, delay, maxDelay?. -/
structure RetryPolicy where
  maxAttempts : Nat
  backoff : Backoff
  delay : Nat
  maxDelay : Option Nat := none
  deriving Repr, DecidableEq

/-- `WorkflowStep` from src/types.  `config` is an arbitrary object in the
source; only its truthiness is ever inspected (validation), so it is
modelled as a `Bool` presence flag.  The engine additionally reads a
`dependencies` array off step objects (`findPendingSteps`), so the field
is carried here although the declared TS interface omits it. -/
structure WorkflowStep where
  id : String
  name : String
  type : String
  config : Bool := true
  next : List String := []
  errorHandler : Option String := none
  retryPolicy : Option RetryPolicy := none
  dependencies : Option (List String) := none
  deriving Repr, DecidableEq

/-- `WorkflowDefinition` from src/types (metadata dropped: never read by
the engine or validator). -/
structure WorkflowDefinition where
  id : String
  name : String
  version : String
  triggers : List WorkflowTrigger
  steps : List WorkflowStep
  deriving Repr, DecidableEq

/-- `ValidationResult` from src/types. -/
structure ValidationResult where
  isValid : Bool
  errors : List String
  warnings : List String
  deriving Repr, DecidableEq

/-- Model of the TypeScript emptiness check `!s || s.trim().length === 0`:
true exactly when the string has no non-whitespace character. -/
def isBlank (s : String) : Bool :=
  s.data.all Char.isWhitespace

namespace Registry

/-- `WorkflowRegistry.hasCircularDependencies` (part_002, lines 343-347):
the body is the constant `return false`. -/
def hasCircularDependencies (_workflow : WorkflowDefinition) : Bool :=
  false

/-- `WorkflowRegistry.findOrphanedSteps` (part_002, lines 349-376): collect
every id referenced by some step's `next` and every trigger's `type`, then
list the step ids not in that set.  TS `Set` iteration order keeps first
insertion; only membership matters below. -/
def findOrphanedSteps (workflow : WorkflowDefinition) : List String :=
  let referencedSteps : List String :=
    (workflow.steps.flatMap (fun s => s.next)) ++
      (workflow.triggers.map (fun t => t.type))
  let allSteps : List String := (workflow.steps.map (fun s => s.id)).dedup
  allSteps.filter (fun stepId => ¬ referencedSteps.contains stepId)

/-- `WorkflowRegistry.validateWorkflow` (part_002, lines 273-341): required
field checks, then the circular-dependency check, then orphan warnings. -/
def validateWorkflow (workflow : WorkflowDefinition) : ValidationResult :=
  let basicErrors : List String :=
    (if isBlank workflow.name then ["Workflow name is required"] else []) ++
    (if isBlank workflow.version then ["Workflow version is required"] else []) ++
    (if workflow.triggers = [] then ["At least one trigger is required"] else []) ++
    (if workflow.steps = [] then ["At least one step is required"] else [])
  let triggerErrors : List String :=
    workflow.triggers.flatMap (fun trigger =>
      (if isBlank trigger.type then ["Trigger type is required"] else []) ++
      (if isBlank trigger.eventType then ["Event type is required for trigger"] else []))
  let stepErrors : List String :=
    workflow.steps.flatMap (fun step =>
      (if isBlank step.id then ["Step ID is required"] else []) ++
      (if isBlank step.name then ["Step name is required"] else []) ++
      (if step.type = "" then ["Step type is required"] else []) ++
      (if ¬ step.config then ["Step configuration is required"] else []))
  let cycleErrors : List String :=
    if hasCircularDependencies workflow then ["Workflow contains circular dependencies"] else []
  let orphanedSteps := findOrphanedSteps workflow
  let warnings : List String :=
    if orphanedSteps ≠ [] then ["Orphaned steps found"] else []
  let errors := basicErrors ++ triggerErrors ++ stepErrors ++ cycleErrors
  { isValid := errors = [], errors := errors, warnings := warnings }

end Registry

/-! Specification-side cycle detection, for comparison with the source's
`hasCircularDependencies`.  Modelled from the spec: "a boolean has-cycle
result using depth-first traversal ... over the union of `next` and
`dependencies` edges; any back-edge to a node still on the stack is a
cycle".  Equivalently: some step reaches itself by a nonempty edge path. -/

/-- Successors of a step id in the union of `next` and `dependencies`
edges of the definition's step graph. -/
def stepSuccessors (workflow : WorkflowDefinition) (stepId : String) : List String :=
  match workflow.steps.find? (fun s => s.id = stepId) with
  | some s => s.next ++ s.dependencies.getD []
  | none => []

/-- Fuel-indexed forward closure of a frontier under `stepSuccessors`. -/
def reachClosure (workflow : WorkflowDefinition) :
    Nat → List String → List String → List String
  | 0, _, visited => visited
  | _ + 1, [], visited => visited
  | fuel + 1, x :: frontier, visited =>
      if visited.contains x then
        reachClosure workflow fuel frontier visited
      else
        reachClosure workflow fuel (stepSuccessors workflow x ++ frontier) (x :: visited)

/-- Modelled from the spec: the step graph (union of `next` and
`dependencies` edges) contains a cycle — some step id reaches itself via a
nonempty path. -/
def stepGraphHasCycle (workflow : WorkflowDefinition) : Bool :=
  let bound := workflow.steps.length * workflow.steps.length +
    (workflow.steps.flatMap (fun s => s.next ++ s.dependencies.getD [])).length + 1
  workflow.steps.any (fun s =>
    (reachClosure workflow bound (stepSuccessors workflow s.id) []).contains s.id)

/-- Inbound `Event` from src/types; only `type` is consulted by the engine. -/
structure Event where
  type : String
  deriving Repr, DecidableEq

/-- Execution status of `WorkflowExecution`. -/
inductive ExecStatus | pending | running | completed | failed | cancelled
  deriving Repr, DecidableEq

/-- The `Record<string, any>` execution context.  The engine reads one
conventional key, `completedSteps` (`getCompletedSteps`), and merges step
result data into the record; the rest of the record is an opaque ordered
key-value list. -/
structure Ctx where
  completedSteps : Option (List String) := none
  entries : List (String × String) := []
  deriving Repr, DecidableEq

/-- Object spread `\x7b ...c, ...d \x7d`: keys of `d` override those of
`c`.  Key collisions inside `entries` are irrelevant to every claim, so
late-binding is modelled by appending. -/
def Ctx.merge (c d : Ctx) : Ctx :=
  { completedSteps :=
      match d.completedSteps with
      | some l => some l
      | none => c.completedSteps,
    entries := c.entries ++ d.entries }

/-- `StepResult` from src/types. -/
structure StepResult where
  success : Bool
  data : Option Ctx := none
  error : Option String := none
  nextSteps : Option (List String) := none
  deriving Repr, DecidableEq

/-- `WorkflowExecution` from src/types; `Date` fields are `Int` clock
readings, `duration` an `Int` number of elapsed units. -/
structure WorkflowExecution where
  id : String
  workflowId : String
  status : ExecStatus
  currentStep : Option String := none
  context : Ctx := {}
  error : Option String := none
  startedAt : Int
  completedAt : Option Int := none
  duration : Option Int := none
  deriving Repr, DecidableEq

namespace Engine

/-- The step executor collaborator (`StepExecutor.execute`): from the step
and the call data to either a resolved `StepResult` or a thrown error. -/
abbrev StepRunner := WorkflowStep → Ctx → Except String StepResult

/-- The mutable engine state threaded through one walk: the (aliased)
execution record, the notifications emitted so far, the ordered list of
step-executor invocations (by step id) and the number of state snapshots
saved. -/
structure EngineState where
  exec : WorkflowExecution
  events : List String := []
  trace : List String := []
  snapshots : Nat := 0
  deriving Repr, DecidableEq

/-- `WorkflowEngine.evaluateTriggerConditions` (workflow-engine.ts, lines
190-198): no conditions means true; otherwise every condition passes the
placeholder evaluation, which is the constant true. -/
def evaluateTriggerConditions (trigger : WorkflowTrigger) (_event : Event) : Bool :=
  match trigger.conditions with
  | none => true
  | some conditions => conditions.all (fun _ => true)

/-- `WorkflowEngine.findStartSteps` (lines 181-188): matching triggers
mapped to their `type` field, which doubles as the entry step id. -/
def findStartSteps (definition : WorkflowDefinition) (triggerEvent : Event) : List String :=
  (definition.triggers.filter (fun trigger =>
      trigger.eventType = triggerEvent.type ∧
        evaluateTriggerConditions trigger triggerEvent)).map
    (fun trigger => trigger.type)

/-- `WorkflowEngine.getCompletedSteps` (lines 223-226):
`execution.context.completedSteps || []`. -/
def getCompletedSteps (execution : WorkflowExecution) : List String :=
  execution.context.completedSteps.getD []

/-- `WorkflowEngine.findPendingSteps` (lines 200-216). -/
def findPendingSteps (execution : WorkflowExecution) (definition : WorkflowDefinition) :
    List String :=
  let completedSteps := getCompletedSteps execution
  let allSteps := definition.steps.map (fun s => s.id)
  allSteps.filter (fun stepId =>
    match definition.steps.find? (fun s => s.id = stepId) with
    | none => false
    | some step =>
      match step.dependencies with
      | some deps => deps.all (fun dep => completedSteps.contains dep)
      | none => true)

/-- `WorkflowEngine.canExecuteStep` (lines 218-221): placeholder, constant
true. -/
def canExecuteStep (_step : WorkflowStep) (_execution : WorkflowExecution) : Bool :=
  true

/-- The `\x7berror\x7d` object passed as input to an error-handler step. -/
def errorInput (errMsg : String) : Ctx :=
  { entries := [("error", errMsg)] }

/-- `WorkflowEngine.executeStep` (lines 113-158).  Fuel bounds the
error-handler chain (the source recursion `executeStep` ↔
`handleStepError` is unbounded).  The step-executor invocation is
recorded on `trace` whether it resolves or throws.  The catch branch for
a step declaring an `errorHandler` is `handleStepError` (lines 228-244)
inlined at its single call site; the standalone `handleStepError` below
restates it and `handleStepError_eq_executeStep_catch` ties the two. -/
def executeStep (runner : StepRunner) (definition : WorkflowDefinition) :
    Nat → EngineState → String → Option Ctx → EngineState × Except String StepResult
  | 0, st, _, _ => (st, .error "out of fuel")
  | fuel + 1, st, stepId, input =>
    match definition.steps.find? (fun s => s.id = stepId) with
    | none => (st, .error "Step not found in workflow")
    | some step =>
      let st := { st with exec := { st.exec with currentStep := some stepId } }
      let callData := input.getD st.exec.context
      let st := { st with trace := st.trace ++ [stepId] }
      match runner step callData with
      | .ok result =>
        let exec :=
          match result.data with
          | some d => { st.exec with context := st.exec.context.merge d }
          | none => st.exec
        ({ st with exec := exec, snapshots := st.snapshots + 1 }, .ok result)
      | .error e =>
        match step.errorHandler with
        | some _ =>
          match definition.steps.find? (fun s => some s.id = step.errorHandler) with
          | some _ =>
            executeStep runner definition fuel st (step.errorHandler.getD "")
              (some (errorInput e))
          | none => (st, .ok { success := false, error := some e })
        | none => (st, .error e)

/-- `WorkflowEngine.handleStepError` (lines 228-244): run the declared
error-handler step with the error as input; if the referenced id does not
exist, return a success=false result instead of raising. -/
def handleStepError (runner : StepRunner) (definition : WorkflowDefinition) (fuel : Nat)
    (st : EngineState) (step : WorkflowStep) (errMsg : String) :
    EngineState × Except String StepResult :=
  match definition.steps.find? (fun s => some s.id = step.errorHandler) with
  | some _ =>
    executeStep runner definition fuel st (step.errorHandler.getD "") (some (errorInput errMsg))
  | none => (st, .ok { success := false, error := some errMsg })

/-- `WorkflowEngine.cancelExecution` (lines 254-263), acting on the record
it found in the ledger: only a `running` execution is flipped to
`cancelled`; `completedAt` is stamped, `duration` is not touched.  Returns
the record and the notifications emitted. -/
def cancelExecutionRecord (execution : WorkflowExecution) (now : Int) :
    WorkflowExecution × List String :=
  if execution.status = .running then
    ({ execution with status := .cancelled, completedAt := some now },
      ["workflow.execution.cancelled"])
  else
    (execution, [])

/-- `WorkflowEngine.cancelExecution` at the ledger level: look the record
up by id and apply `cancelExecutionRecord` in place. -/
def cancelExecution (ledger : List (String × WorkflowExecution)) (executionId : String)
    (now : Int) : List (String × WorkflowExecution) × List String :=
  match ledger.find? (fun p => p.1 = executionId) with
  | none => (ledger, [])
  | some (_, execution) =>
    let (e, evs) := cancelExecutionRecord execution now
    (ledger.map (fun p => if p.1 = executionId then (p.1, e) else p), evs)

/-- Cooperative cancellation schedule: after an awaited step execution the
event loop may run a pending `cancelExecution` call for this execution.
`sched n = true` means a cancellation request lands at the await boundary
where `n` step-executor invocations have happened; the faithful
`cancelExecutionRecord` body is applied to the aliased record. -/
def maybeCancel (sched : Nat → Bool) (cancelTime : Int) (st : EngineState) : EngineState :=
  if sched st.trace.length then
    let (e, evs) := cancelExecutionRecord st.exec cancelTime
    { st with exec := e, events := st.events ++ evs }
  else
    st

/-- The `for (const step of startSteps)` loop of `executeWorkflowSteps`
(lines 86-88); the trigger event is the input passed to each start step. -/
def runStartSteps (runner : StepRunner) (definition : WorkflowDefinition)
    (eventCtx : Ctx) (sched : Nat → Bool) (cancelTime : Int) (fuelE : Nat) :
    List String → EngineState → EngineState × Option String
  | [], st => (st, none)
  | stepId :: rest, st =>
    match executeStep runner definition fuelE st stepId (some eventCtx) with
    | (st, .error e) => (st, some e)
    | (st, .ok _) =>
      runStartSteps runner definition eventCtx sched cancelTime fuelE rest
        (maybeCancel sched cancelTime st)

/-- The `while (pendingSteps.length > 0)` loop of `processNextSteps`
(lines 166-178): pop a step id, execute it when `canExecuteStep` allows,
push the result's `nextSteps`.  Fuel bounds the queue growth. -/
def processLoop (runner : StepRunner) (definition : WorkflowDefinition)
    (sched : Nat → Bool) (cancelTime : Int) (fuelE : Nat) :
    Nat → EngineState → List String → EngineState × Option String
  | 0, st, queue =>
    match queue with
    | [] => (st, none)
    | _ => (st, some "out of fuel")
  | _ + 1, st, [] => (st, none)
  | fuel + 1, st, stepId :: rest =>
    match definition.steps.find? (fun s => s.id = stepId) with
    | none => processLoop runner definition sched cancelTime fuelE fuel st rest
    | some step =>
      if canExecuteStep step st.exec then
        match executeStep runner definition fuelE st stepId none with
        | (st, .error e) => (st, some e)
        | (st, .ok result) =>
          processLoop runner definition sched cancelTime fuelE fuel
            (maybeCancel sched cancelTime st) (rest ++ result.nextSteps.getD [])
      else
        processLoop runner definition sched cancelTime fuelE fuel st rest

/-- `WorkflowEngine.processNextSteps` (lines 160-179): seed the queue from
`findPendingSteps` and run the loop. -/
def processNextSteps (runner : StepRunner) (definition : WorkflowDefinition)
    (sched : Nat → Bool) (cancelTime : Int) (fuelE fuelQ : Nat) (st : EngineState) :
    EngineState × Option String :=
  processLoop runner definition sched cancelTime fuelE fuelQ st
    (findPendingSteps st.exec definition)

/-- The try body of `WorkflowEngine.executeWorkflowSteps` (lines 76-91):
set running, resolve and run the start steps (failing when no trigger
matches), then run the pending queue. -/
def walkSteps (runner : StepRunner) (definition : WorkflowDefinition)
    (triggerEvent : Event) (sched : Nat → Bool) (cancelTime : Int)
    (fuelE fuelQ : Nat) (st : EngineState) : EngineState × Option String :=
  let st := { st with exec := { st.exec with status := .running } }
  let startSteps := findStartSteps definition triggerEvent
  let eventCtx : Ctx := { entries := [("type", triggerEvent.type)] }
  if startSteps = [] then (st, some "No matching trigger steps found")
  else
    match runStartSteps runner definition eventCtx sched cancelTime fuelE startSteps st with
    | (st, some e) => (st, some e)
    | (st, none) => processNextSteps runner definition sched cancelTime fuelE fuelQ st

/-- `WorkflowEngine.executeWorkflowSteps` (lines 71-111): run the try
body `walkSteps`; on success of the whole walk set
completed/completedAt/duration and emit completed; on a propagated error
set failed/error/completedAt/duration, emit failed, and re-raise.
`endTime` is the clock reading at the terminal transition. -/
def executeWorkflowSteps (runner : StepRunner) (definition : WorkflowDefinition)
    (triggerEvent : Event) (sched : Nat → Bool) (cancelTime endTime : Int)
    (fuelE fuelQ : Nat) (st : EngineState) : EngineState × Option String :=
  match walkSteps runner definition triggerEvent sched cancelTime fuelE fuelQ st with
  | (st, none) =>
    let exec := st.exec
    let exec := { exec with
      status := ExecStatus.completed
      completedAt := some endTime
      duration := some (endTime - exec.startedAt) }
    ({ st with exec := exec, events := st.events ++ ["workflow.execution.completed"] }, none)
  | (st, some e) =>
    let exec := st.exec
    let exec := { exec with
      status := ExecStatus.failed
      error := some e
      completedAt := some endTime
      duration := some (endTime - exec.startedAt) }
    ({ st with exec := exec, events := st.events ++ ["workflow.execution.failed"] }, some e)

/-- Observable outcome of `executeWorkflow`. -/
structure EngineOutcome where
  error : Option String
  ledger : List (String × WorkflowExecution)
  events : List String
  trace : List String
  deriving Repr, DecidableEq

/-- `WorkflowEngine.executeWorkflow` (lines 28-69): definition lookup,
validation, execution record creation and ledger insertion, started
notification, then the walk.  The ledger entry aliases the record the
walk mutates, so the final ledger holds the walked record. -/
def executeWorkflow (registry : String → Option WorkflowDefinition) (runner : StepRunner)
    (newId : String) (startTime endTime cancelTime : Int) (sched : Nat → Bool)
    (fuelE fuelQ : Nat) (workflowId : String) (triggerEvent : Event)
    (context : Option Ctx) (ledger : List (String × WorkflowExecution)) : EngineOutcome :=
  match registry workflowId with
  | none =>
    { error := some "Workflow not found", ledger := ledger, events := [], trace := [] }
  | some definition =>
    if (Registry.validateWorkflow definition).isValid = false then
      { error := some "Workflow validation failed", ledger := ledger, events := [], trace := [] }
    else
      let execution : WorkflowExecution :=
        { id := newId, workflowId := workflowId, status := .pending,
          context := context.getD {}, startedAt := startTime }
      let st0 : EngineState := { exec := execution, events := ["workflow.execution.started"] }
      let (st, err) :=
        executeWorkflowSteps runner definition triggerEvent sched cancelTime endTime
          fuelE fuelQ st0
      { error := err, ledger := (newId, st.exec) :: ledger, events := st.events,
        trace := st.trace }

end Engine

/-- `SagaStep` from src/types (timeout dropped: never read by the saga
engine). -/
structure SagaStep where
  id : String
  name : String
  action : String
  compensation : Option String := none
  dependencies : Option (List String) := none
  deriving Repr, DecidableEq

/-- Compensation strategy of `CompensationPolicy`. -/
inductive CompStrategy | forward | backward | mixed
  deriving Repr, DecidableEq

/-- `CompensationPolicy` from src/types. -/
structure CompensationPolicy where
  strategy : CompStrategy
  maxCompensations : Nat := 0
  parallelCompensation : Bool := false
  deriving Repr, DecidableEq

/-- `SagaDefinition` from src/types. -/
structure SagaDefinition where
  id : String
  name : String
  steps : List SagaStep
  compensationPolicy : CompensationPolicy
  deriving Repr, DecidableEq

namespace Saga

/-- Saga execution status values the engine assigns. -/
inductive SagaStatus
  | running | completed | failed | compensated | compensationFailed | cancelled
  deriving Repr, DecidableEq

/-- The saga execution context object created by `startSaga` (saga-engine.ts,
lines 31-41).  `data` is the accumulated `Record<string, any>`; spread
merges append (key collisions are irrelevant to every claim). -/
structure SagaContext where
  sagaId : String
  status : SagaStatus
  currentStep : Nat
  data : List (String × String)
  completedSteps : List String
  failedSteps : List (String × String)
  deriving Repr, DecidableEq

/-- Mutable saga state: the context, the notifications emitted, the
ordered orchestrator invocations (step ids) and the ordered compensation
invocations (compensation action names). -/
structure SagaState where
  ctx : SagaContext
  events : List String := []
  stepTrace : List String := []
  compTrace : List String := []
  deriving Repr, DecidableEq

/-- `SagaOrchestrator.executeStep` collaborator: resolves to the result
data merged into the context, or throws. -/
abbrev SagaRunner := SagaStep → List (String × String) → Except String (List (String × String))

/-- `CompensationManager.executeCompensation` collaborator. -/
abbrev CompRunner := String → List (String × String) → Except String Unit

/-- `SagaEngine.checkDependencies` (saga-engine.ts, lines 286-288). -/
def checkDependencies (dependencies completedSteps : List String) : Bool :=
  dependencies.all (fun dep => completedSteps.contains dep)

/-- `SagaEngine.determineCompensationStrategy` (lines 213-219): returns
the policy's strategy unchanged. -/
def determineCompensationStrategy (compensationPolicy : CompensationPolicy)
    (_executionContext : SagaContext) : CompStrategy :=
  compensationPolicy.strategy

/-- The compensation walk shared by backward/forward compensation: for
each listed step carrying a `compensation` action, invoke the
compensation manager; a raised compensation error aborts the walk and is
re-thrown. -/
def compensateSteps (comp : CompRunner) :
    List SagaStep → SagaState → SagaState × Option String
  | [], st => (st, none)
  | step :: rest, st =>
    match step.compensation with
    | none => compensateSteps comp rest st
    | some c =>
      let st := { st with compTrace := st.compTrace ++ [c] }
      match comp c st.ctx.data with
      | .ok _ => compensateSteps comp rest st
      | .error e => (st, some e)

/-- `SagaEngine.executeBackwardCompensation` (lines 221-251): walk
`completedSteps` in reverse, resolving each id in the definition's step
list. -/
def executeBackwardCompensation (comp : CompRunner) (sagaDefinition : SagaDefinition)
    (st : SagaState) : SagaState × Option String :=
  let completedSteps := st.ctx.completedSteps.reverse
  compensateSteps comp
    (completedSteps.filterMap (fun stepId =>
      sagaDefinition.steps.find? (fun s => s.id = stepId)))
    st

/-- `SagaEngine.executeForwardCompensation` (lines 253-284): walk the
steps after `currentStep` in definition order. -/
def executeForwardCompensation (comp : CompRunner) (sagaDefinition : SagaDefinition)
    (st : SagaState) : SagaState × Option String :=
  compensateSteps comp (sagaDefinition.steps.drop (st.ctx.currentStep + 1)) st

/-- `SagaEngine.handleStepFailure` (lines 155-211): pick the strategy, run
the matching compensation walk (no branch exists for `mixed`), then set
compensated and emit; a compensation error instead sets
compensationFailed, emits, and re-throws. -/
def handleStepFailure (comp : CompRunner) (sagaDefinition : SagaDefinition)
    (st : SagaState) : SagaState × Option String :=
  let strategy := determineCompensationStrategy sagaDefinition.compensationPolicy st.ctx
  let walked : SagaState × Option String :=
    match strategy with
    | .backward => executeBackwardCompensation comp sagaDefinition st
    | .forward => executeForwardCompensation comp sagaDefinition st
    | .mixed => (st, none)
  match walked with
  | (st, none) =>
    ({ st with
        ctx := { st.ctx with status := SagaStatus.compensated }
        events := st.events ++ ["saga.compensated"] }, none)
  | (st, some e) =>
    ({ st with
        ctx := { st.ctx with status := SagaStatus.compensationFailed }
        events := st.events ++ ["saga.compensation_failed"] }, some e)

/-- The `for (let i = 0; i < steps.length; i++)` loop of `executeSaga`
(lines 73-129), over the remaining steps with the running index: check
dependencies, invoke the orchestrator, merge data, record completion and
emit; on a step failure record it, run `handleStepFailure` and stop — a
compensation error thrown there propagates out of the loop. -/
def sagaLoop (run : SagaRunner) (comp : CompRunner) (sagaDefinition : SagaDefinition) :
    List SagaStep → Nat → SagaState → SagaState × Option String
  | [], _, st => (st, none)
  | step :: rest, i, st =>
    let st := { st with ctx := { st.ctx with currentStep := i } }
    let depsOk : Bool :=
      match step.dependencies with
      | some deps => checkDependencies deps st.ctx.completedSteps
      | none => true
    let attempt : SagaState × Except String (List (String × String)) :=
      if depsOk then
        let st := { st with stepTrace := st.stepTrace ++ [step.id] }
        (st, run step st.ctx.data)
      else
        (st, .error "Dependencies not met for step")
    match attempt with
    | (st, .ok result) =>
      let st := { st with
        ctx := { st.ctx with
          data := st.ctx.data ++ result
          completedSteps := st.ctx.completedSteps ++ [step.id] }
        events := st.events ++ ["saga.step.completed"] }
      sagaLoop run comp sagaDefinition rest (i + 1) st
    | (st, .error e) =>
      let st := { st with
        ctx := { st.ctx with failedSteps := st.ctx.failedSteps ++ [(step.id, e)] } }
      match handleStepFailure comp sagaDefinition st with
      | (st, none) => (st, none)
      | (st, some compErr) => (st, some compErr)

/-- `SagaEngine.executeSaga` (lines 64-153): run the loop; when nothing
failed set completed and emit; an error propagated from the loop hits the
outer catch, which sets failed, emits, and re-throws. -/
def executeSaga (run : SagaRunner) (comp : CompRunner) (sagaDefinition : SagaDefinition)
    (st : SagaState) : SagaState × Option String :=
  match sagaLoop run comp sagaDefinition sagaDefinition.steps 0 st with
  | (st, none) =>
    if st.ctx.failedSteps = [] then
      ({ st with
          ctx := { st.ctx with status := SagaStatus.completed }
          events := st.events ++ ["saga.completed"] }, none)
    else
      (st, none)
  | (st, some e) =>
    ({ st with
        ctx := { st.ctx with status := SagaStatus.failed }
        events := st.events ++ ["saga.failed"] }, some e)

/-- `SagaEngine.startSaga` (lines 23-62): create the running context, emit
started, and run `executeSaga`; an error is re-thrown to the caller.  (The
ledger insert-then-delete in `finally` leaves the live ledger unchanged on
return and is not carried here.) -/
def startSaga (run : SagaRunner) (comp : CompRunner) (sagaDefinition : SagaDefinition)
    (initialData : List (String × String)) : SagaState × Option String :=
  let ctx : SagaContext :=
    { sagaId := sagaDefinition.id, status := SagaStatus.running, currentStep := 0,
      data := initialData, completedSteps := [], failedSteps := [] }
  let st : SagaState := { ctx := ctx, events := ["saga.started"] }
  executeSaga run comp sagaDefinition st

end Saga

/-! Concrete fixtures used by the theorems below. -/

/-- A two-step workflow whose `next` edges form a cycle (step1 → step2 →
step1), with a trigger entering at step1. -/
def wfCyclic : WorkflowDefinition :=
  { id := "wf-cyc", name := "wf-cyc", version := "1",
    triggers := [{ type := "step1", eventType := "evt" }],
    steps := [
      { id := "step1", name := "step1", type := "action", next := ["step2"] },
      { id := "step2", name := "step2", type := "action", next := ["step1"] } ] }

/-- A step runner that always resolves successfully with no data. -/
def okRunner : Engine.StepRunner := fun _ _ => .ok { success := true }

/-- A step runner that always throws. -/
def failRunner : Engine.StepRunner := fun _ _ => .error "boom"

/-- Linear two-step workflow a → b entered at a. -/
def wfLinear : WorkflowDefinition :=
  { id := "wf-lin", name := "wf-lin", version := "1",
    triggers := [{ type := "a", eventType := "evt" }],
    steps := [
      { id := "a", name := "a", type := "action", next := ["b"] },
      { id := "b", name := "b", type := "action" } ] }

/-- Single-step workflow entered at a. -/
def wfSingle : WorkflowDefinition :=
  { id := "wf-s", name := "wf-s", version := "1",
    triggers := [{ type := "a", eventType := "evt" }],
    steps := [ { id := "a", name := "a", type := "action" } ] }

/-- Single-step workflow whose step declares an errorHandler id that does
not exist in the definition. -/
def wfGhost : WorkflowDefinition :=
  { id := "wf-g", name := "wf-g", version := "1",
    triggers := [{ type := "a", eventType := "evt" }],
    steps := [ { id := "a", name := "a", type := "action", errorHandler := some "ghost" } ] }

/-- Workflow whose step s2 is referenced only through s1's errorHandler. -/
def wfHandlerRef : WorkflowDefinition :=
  { id := "wf-eh", name := "wf-eh", version := "1",
    triggers := [{ type := "s1", eventType := "evt" }],
    steps := [
      { id := "s1", name := "s1", type := "action", errorHandler := some "s2" },
      { id := "s2", name := "s2", type := "action" } ] }

/-- Single-step workflow whose step carries a retry policy (3 attempts,
exponential backoff). -/
def wfRetry : WorkflowDefinition :=
  { id := "wf-r", name := "wf-r", version := "1",
    triggers := [{ type := "r", eventType := "evt" }],
    steps := [
      { id := "r", name := "r", type := "action",
        retryPolicy := some { maxAttempts := 3, backoff := .exponential, delay := 10,
                              maxDelay := some 100 } } ] }

/-- A fresh pending execution record, started at clock 2. -/
def execPending : WorkflowExecution :=
  { id := "e1", workflowId := "wf-lin", status := .pending, startedAt := 2 }

/-- A running execution record, started at clock 2. -/
def execRunning : WorkflowExecution :=
  { id := "e1", workflowId := "wf-lin", status := .running, startedAt := 2 }

/-- Engine state at the beginning of a walk of `execPending`. -/
def stPending : Engine.EngineState := { exec := execPending }

/-- Three-step saga s1, s2, s3 with backward compensation policy; s1
declares compensation action c1. -/
def sagaThree : SagaDefinition :=
  { id := "saga1", name := "saga1",
    steps := [
      { id := "s1", name := "s1", action := "a1", compensation := some "c1" },
      { id := "s2", name := "s2", action := "a2" },
      { id := "s3", name := "s3", action := "a3" } ],
    compensationPolicy := { strategy := .backward } }

/-- Saga step runner: s1 resolves with data, every other step throws. -/
def sagaRun1ok : Saga.SagaRunner := fun step _ =>
  if step.id = "s1" then .ok [("k", "v")] else .error "stepfail"

/-- Compensation runner that always succeeds. -/
def compOk : Saga.CompRunner := fun _ _ => .ok ()

/-- Compensation runner that always raises. -/
def compBoom : Saga.CompRunner := fun _ _ => .error "compboom"

/-!  Helper lemmas about the engine walk. -/

/-- The catch branch inlined inside `executeStep` is definitionally
`handleStepError`. -/
theorem Engine.handleStepError_eq_executeStep_catch (runner : Engine.StepRunner)
    (definition : WorkflowDefinition) (fuel : Nat) (st : Engine.EngineState)
    (step : WorkflowStep) (e : String) :
    Engine.handleStepError runner definition fuel st step e =
      match definition.steps.find? (fun s => some s.id = step.errorHandler) with
      | some _ =>
        Engine.executeStep runner definition fuel st (step.errorHandler.getD "")
          (some (Engine.errorInput e))
      | none => (st, .ok { success := false, error := some e }) := rfl

/-- `executeStep` never touches the `startedAt` and `duration` fields of
the execution record. -/
theorem Engine.executeStep_clock (runner : Engine.StepRunner)
    (definition : WorkflowDefinition) :
    ∀ (fuel : Nat) (st : Engine.EngineState) (stepId : String) (input : Option Ctx),
      (Engine.executeStep runner definition fuel st stepId input).1.exec.startedAt =
          st.exec.startedAt ∧
      (Engine.executeStep runner definition fuel st stepId input).1.exec.duration =
          st.exec.duration := by
  intro fuel
  induction fuel with
  | zero => intro st stepId input; simp [Engine.executeStep]
  | succ n ih =>
    intro st stepId input
    simp only [Engine.executeStep]
    split
    · simp
    · split
      · split <;> simp
      · split
        · split
          · simpa using ih _ _ _
          · simp
        · simp

/-- The cancellation boundary never touches `startedAt` and `duration`. -/
theorem Engine.maybeCancel_clock (sched : Nat → Bool) (cancelTime : Int)
    (st : Engine.EngineState) :
    (Engine.maybeCancel sched cancelTime st).exec.startedAt = st.exec.startedAt ∧
    (Engine.maybeCancel sched cancelTime st).exec.duration = st.exec.duration := by
  simp only [Engine.maybeCancel, Engine.cancelExecutionRecord]
  split
  · split <;> simp
  · simp

/-- The start-step loop never touches `startedAt` and `duration`. -/
theorem Engine.runStartSteps_clock (runner : Engine.StepRunner)
    (definition : WorkflowDefinition) (eventCtx : Ctx) (sched : Nat → Bool)
    (cancelTime : Int) (fuelE : Nat) :
    ∀ (steps : List String) (st : Engine.EngineState),
      (Engine.runStartSteps runner definition eventCtx sched cancelTime fuelE steps
          st).1.exec.startedAt = st.exec.startedAt ∧
      (Engine.runStartSteps runner definition eventCtx sched cancelTime fuelE steps
          st).1.exec.duration = st.exec.duration := by
  intro steps
  induction steps with
  | nil => intro st; simp [Engine.runStartSteps]
  | cons stepId rest ih =>
    intro st
    simp only [Engine.runStartSteps]
    split
    next st' e heq =>
      have h := Engine.executeStep_clock runner definition fuelE st stepId (some eventCtx)
      rw [heq] at h
      simpa using h
    next st' r heq =>
      have h1 := Engine.executeStep_clock runner definition fuelE st stepId (some eventCtx)
      rw [heq] at h1
      have h2 := Engine.maybeCancel_clock sched cancelTime st'
      have h3 := ih (Engine.maybeCancel sched cancelTime st')
      constructor
      · rw [h3.1, h2.1]; simpa using h1.1
      · rw [h3.2, h2.2]; simpa using h1.2

/-- The pending-queue loop never touches `startedAt` and `duration`. -/
theorem Engine.processLoop_clock (runner : Engine.StepRunner)
    (definition : WorkflowDefinition) (sched : Nat → Bool) (cancelTime : Int)
    (fuelE : Nat) :
    ∀ (fuel : Nat) (st : Engine.EngineState) (queue : List String),
      (Engine.processLoop runner definition sched cancelTime fuelE fuel st
          queue).1.exec.startedAt = st.exec.startedAt ∧
      (Engine.processLoop runner definition sched cancelTime fuelE fuel st
          queue).1.exec.duration = st.exec.duration := by
  intro fuel
  induction fuel with
  | zero => intro st queue; cases queue <;> simp [Engine.processLoop]
  | succ n ih =>
    intro st queue
    cases queue with
    | nil => simp [Engine.processLoop]
    | cons stepId rest =>
      simp only [Engine.processLoop]
      split
      · exact ih st rest
      · split
        · split
          next st' e heq =>
            have h := Engine.executeStep_clock runner definition fuelE st stepId none
            rw [heq] at h
            simpa using h
          next st' r heq =>
            have h1 := Engine.executeStep_clock runner definition fuelE st stepId none
            rw [heq] at h1
            have h2 := Engine.maybeCancel_clock sched cancelTime st'
            have h3 := ih (Engine.maybeCancel sched cancelTime st')
              (rest ++ r.nextSteps.getD [])
            constructor
            · rw [h3.1, h2.1]; simpa using h1.1
            · rw [h3.2, h2.2]; simpa using h1.2
        · exact ih st rest

/-- `processNextSteps` never touches `startedAt` and `duration`. -/
theorem Engine.processNextSteps_clock (runner : Engine.StepRunner)
    (definition : WorkflowDefinition) (sched : Nat → Bool) (cancelTime : Int)
    (fuelE fuelQ : Nat) (st : Engine.EngineState) :
    (Engine.processNextSteps runner definition sched cancelTime fuelE fuelQ
        st).1.exec.startedAt = st.exec.startedAt ∧
    (Engine.processNextSteps runner definition sched cancelTime fuelE fuelQ
        st).1.exec.duration = st.exec.duration :=
  Engine.processLoop_clock runner definition sched cancelTime fuelE fuelQ st
    (Engine.findPendingSteps st.exec definition)

/-- The whole walk body never touches `startedAt` and `duration`. -/
theorem Engine.walkSteps_clock (runner : Engine.StepRunner)
    (definition : WorkflowDefinition) (triggerEvent : Event) (sched : Nat → Bool)
    (cancelTime : Int) (fuelE fuelQ : Nat) (st : Engine.EngineState) :
    (Engine.walkSteps runner definition triggerEvent sched cancelTime fuelE fuelQ
        st).1.exec.startedAt = st.exec.startedAt ∧
    (Engine.walkSteps runner definition triggerEvent sched cancelTime fuelE fuelQ
        st).1.exec.duration = st.exec.duration := by
  simp only [Engine.walkSteps]
  split
  · simp
  · split
    next st' e heq =>
      have h := Engine.runStartSteps_clock runner definition
        { entries := [("type", triggerEvent.type)] } sched cancelTime fuelE
        (Engine.findStartSteps definition triggerEvent)
        { st with exec := { st.exec with status := .running } }
      rw [heq] at h
      simpa using h
    next st' heq =>
      have h1 := Engine.runStartSteps_clock runner definition
        { entries := [("type", triggerEvent.type)] } sched cancelTime fuelE
        (Engine.findStartSteps definition triggerEvent)
        { st with exec := { st.exec with status := .running } }
      rw [heq] at h1
      have h2 := Engine.processNextSteps_clock runner definition sched cancelTime
        fuelE fuelQ st'
      constructor
      · rw [h2.1]; simpa using h1.1
      · rw [h2.2]; simpa using h1.2

/-!  Claim theorems. -/

/-- C1: the cycle check used by validation is the constant false.  On the
concrete two-step cycle `wfCyclic` the step graph has a cycle, yet
`hasCircularDependencies` returns false and `validateWorkflow` reports
the definition valid — the claimed detection of cyclic graphs does not
happen. -/
theorem claim_C1_cycle_check_is_stub :
    stepGraphHasCycle wfCyclic = true ∧
    Registry.hasCircularDependencies wfCyclic = false ∧
    (Registry.validateWorkflow wfCyclic).isValid = true := by
  decide

/-- C2: cancellation is not observed by the step walk.  On the linear
workflow a → b, a cancellation request lands after the first step
execution: `cancelExecution` flips the running record to cancelled and
emits the cancelled notification, yet the walk executes two further steps
and its terminal transition overwrites the status with completed. -/
theorem claim_C2_cancelled_status_overwritten :
    (let r := Engine.executeWorkflowSteps okRunner wfLinear { type := "evt" }
        (fun n => n = 1) 3 10 5 8 stPending
     r.1.events = ["workflow.execution.cancelled", "workflow.execution.completed"] ∧
     r.1.exec.status = .completed ∧
     r.1.trace = ["a", "a", "b"] ∧
     r.2 = none) := by
  decide

/-- C3: when a compensation action raises, the compensation_failed
notification is emitted and the error is re-raised to the caller of
`startSaga`, but the execution's final status is failed, not
compensationFailed: the outer catch of `executeSaga` overwrites the
status set by `handleStepFailure`. -/
theorem claim_C3_compensation_error_status_overwritten :
    (let r := Saga.startSaga sagaRun1ok compBoom sagaThree []
     r.1.ctx.status = .failed ∧
     r.1.events = ["saga.started", "saga.step.completed", "saga.compensation_failed",
       "saga.failed"] ∧
     r.1.compTrace = ["c1"] ∧
     r.2 = some "compboom") := by
  decide

/-- C5 counterexample: `cancelExecution` on a running execution reaches
the cancelled terminal state with `completedAt` stamped but `duration`
left unset, so the cancelled record's duration does not equal
completedAt − startedAt. -/
theorem claim_C5_counterexample_cancel_sets_no_duration :
    (let cancelled := Engine.cancelExecution [("e1", execRunning)] "e1" 5
     let e := { execRunning with status := ExecStatus.cancelled, completedAt := some 5 }
     cancelled.2 = ["workflow.execution.cancelled"] ∧
     cancelled.1 = [("e1", e)] ∧
     e.status = .cancelled ∧ e.completedAt = some 5 ∧ e.startedAt = 2 ∧
     e.duration = none) := by
  decide

/-- C6 counterexample: in `wfHandlerRef`, step s2 is referenced by step
s1's errorHandler, yet `findOrphanedSteps` reports it orphaned —
errorHandler references do not exclude a step from the orphan set. -/
theorem claim_C6_counterexample_errorhandler_ref_ignored :
    Registry.findOrphanedSteps wfHandlerRef = ["s2"] ∧
    wfHandlerRef.steps.filterMap WorkflowStep.errorHandler = ["s2"] := by
  decide

/-- C7 counterexample: walking the single-step workflow `wfSingle`
executes its only step twice — once as the start step and once more from
the pending queue, because `findPendingSteps` does not exclude steps that
have already run. -/
theorem claim_C7_counterexample_start_step_rerun :
    (let r := Engine.executeWorkflowSteps okRunner wfSingle { type := "evt" }
        (fun _ => false) 0 9 5 8 stPending
     r.1.trace = ["a", "a"]) ∧
    Engine.findPendingSteps { execPending with status := .running } wfSingle = ["a"] := by
  decide

/-- C8: the retry policy is never exercised.  Step r of `wfRetry` carries
retryPolicy maxAttempts = 3, yet when its execution fails the engine
invokes the step executor exactly once and propagates the error with no
retry. -/
theorem claim_C8_retry_policy_not_exercised :
    ((wfRetry.steps.find? (fun s => s.id = "r")).bind
        (fun s => s.retryPolicy)).map (fun p => p.maxAttempts) = some 3 ∧
    (let r := Engine.executeStep failRunner wfRetry 5 stPending "r" none
     r.1.trace = ["r"] ∧ r.2 = .error "boom") := by
  decide

/-- C10: a failing step whose errorHandler id resolves to no step does
not raise: `handleStepError` returns a success=false result that stands
in for the failed step's result, and the walk of `wfGhost` terminates
with status completed despite the unhandled step failure. -/
theorem claim_C10_dangling_errorhandler_swallows_failure :
    Engine.handleStepError failRunner wfGhost 5 stPending
        { id := "a", name := "a", type := "action", errorHandler := some "ghost" } "boom" =
      (stPending, .ok { success := false, error := some "boom" }) ∧
    (let r := Engine.executeWorkflowSteps failRunner wfGhost { type := "evt" }
        (fun _ => false) 0 9 5 8 stPending
     r.1.exec.status = .completed ∧ r.2 = none ∧
     r.1.events = ["workflow.execution.completed"]) := by
  decide

/-- C4: in any three-step saga with backward compensation strategy in
which step1 resolves (and declares compensation action c1) and step2
throws, `startSaga` invokes c1 exactly once, invokes the step runner only
on step1 and step2 (step3 never executes), and the run ends with status
compensated and no raised error. -/
theorem claim_C4_backward_compensation_scenario
    (run : Saga.SagaRunner) (comp : Saga.CompRunner) (s1 s2 s3 : SagaStep)
    (policy : CompensationPolicy) (sid sname : String)
    (initialData d1 : List (String × String)) (msg c1 : String)
    (hstrat : policy.strategy = .backward)
    (hdep1 : s1.dependencies = none) (hdep2 : s2.dependencies = none)
    (hrun1 : ∀ d, run s1 d = .ok d1) (hrun2 : ∀ d, run s2 d = .error msg)
    (hcomp : s1.compensation = some c1) (hc1 : ∀ d, comp c1 d = .ok ()) :
    (let defn : SagaDefinition :=
      { id := sid, name := sname, steps := [s1, s2, s3], compensationPolicy := policy }
     let r := Saga.startSaga run comp defn initialData
     r.1.ctx.status = .compensated ∧ r.2 = none ∧
     r.1.stepTrace = [s1.id, s2.id] ∧ r.1.compTrace = [c1]) := by
  simp [Saga.startSaga, Saga.executeSaga, Saga.sagaLoop, Saga.handleStepFailure,
    Saga.determineCompensationStrategy, Saga.executeBackwardCompensation,
    Saga.compensateSteps, hstrat, hdep1, hdep2, hcomp, hrun1, hrun2, hc1]

/-- C4 witness: the scenario instantiated with `sagaThree`,
`sagaRun1ok` and `compOk`. -/
theorem claim_C4_backward_compensation_scenario_witness :
    (let r := Saga.startSaga sagaRun1ok compOk sagaThree [("init", "1")]
     r.1.ctx.status = .compensated ∧ r.2 = none ∧
     r.1.stepTrace = ["s1", "s2"] ∧ r.1.compTrace = ["c1"]) :=
  claim_C4_backward_compensation_scenario sagaRun1ok compOk
    { id := "s1", name := "s1", action := "a1", compensation := some "c1" }
    { id := "s2", name := "s2", action := "a2" }
    { id := "s3", name := "s3", action := "a3" }
    { strategy := .backward } "saga1" "saga1" [("init", "1")] [("k", "v")] "stepfail" "c1"
    rfl rfl rfl (fun _ => rfl) (fun _ => rfl) rfl (fun _ => rfl)

/-- C5 (amended): every workflow walk terminates with status completed or
failed, and that terminal transition stamps completedAt with the terminal
clock reading and computes duration = completedAt − startedAt, which is
non-negative whenever the terminal clock is not before startedAt; the
cancelled transition of `cancelExecution` never sets duration. -/
theorem claim_C5_duration_at_completed_or_failed_only
    (runner : Engine.StepRunner) (definition : WorkflowDefinition) (triggerEvent : Event)
    (sched : Nat → Bool) (cancelTime endTime : Int) (fuelE fuelQ : Nat)
    (st : Engine.EngineState) (hle : st.exec.startedAt ≤ endTime) :
    (let r := Engine.executeWorkflowSteps runner definition triggerEvent sched cancelTime
        endTime fuelE fuelQ st
     (r.1.exec.status = .completed ∨ r.1.exec.status = .failed) ∧
     r.1.exec.completedAt = some endTime ∧
     r.1.exec.duration = some (endTime - st.exec.startedAt) ∧
     0 ≤ endTime - st.exec.startedAt) ∧
    (∀ (e : WorkflowExecution) (now : Int),
      (Engine.cancelExecutionRecord e now).1.duration = e.duration) := by
  constructor
  · simp only [Engine.executeWorkflowSteps]
    split
    next st' heq =>
      have h := Engine.walkSteps_clock runner definition triggerEvent sched cancelTime
        fuelE fuelQ st
      rw [heq] at h
      simp only at h
      exact ⟨Or.inl rfl, rfl, by simp [h.1], by omega⟩
    next st' e heq =>
      have h := Engine.walkSteps_clock runner definition triggerEvent sched cancelTime
        fuelE fuelQ st
      rw [heq] at h
      simp only at h
      exact ⟨Or.inr rfl, rfl, by simp [h.1], by omega⟩
  · intro e now
    simp only [Engine.cancelExecutionRecord]
    split <;> simp

/-- C5 witness: the amended statement instantiated with the linear
workflow walked from clock 2 to clock 10, and a cancellation of
`execRunning` at clock 5. -/
theorem claim_C5_duration_at_completed_or_failed_only_witness :
    ((let r := Engine.executeWorkflowSteps okRunner wfLinear { type := "evt" }
        (fun _ => false) 0 10 5 8 stPending
      (r.1.exec.status = .completed ∨ r.1.exec.status = .failed) ∧
      r.1.exec.completedAt = some 10 ∧
      r.1.exec.duration = some (10 - stPending.exec.startedAt) ∧
      0 ≤ 10 - stPending.exec.startedAt) ∧
     (∀ (e : WorkflowExecution) (now : Int),
       (Engine.cancelExecutionRecord e now).1.duration = e.duration)) :=
  claim_C5_duration_at_completed_or_failed_only okRunner wfLinear { type := "evt" }
    (fun _ => false) 0 10 5 8 stPending (by decide)

/-- C6 (amended): membership in `findOrphanedSteps` is exactly: the id is
a step id of the definition that appears in no step's `next` list and is
no trigger's entry point — `errorHandler` and `dependencies` references
are not consulted. -/
theorem claim_C6_orphans_unreferenced_by_next_or_trigger
    (workflow : WorkflowDefinition) (stepId : String) :
    stepId ∈ Registry.findOrphanedSteps workflow ↔
      (stepId ∈ workflow.steps.map WorkflowStep.id ∧
       stepId ∉ workflow.steps.flatMap WorkflowStep.next ∧
       stepId ∉ workflow.triggers.map WorkflowTrigger.type) := by
  simp [Registry.findOrphanedSteps, List.mem_filter, List.mem_dedup, not_or, and_assoc]

/-- C7 (amended): for definitions with unique step ids, membership in
`findPendingSteps` is exactly: the id belongs to a step all of whose
declared dependencies are in the execution's completed-step set — there
is no exclusion of steps that have already run. -/
theorem claim_C7_pending_steps_characterization
    (definition : WorkflowDefinition) (execution : WorkflowExecution)
    (hnd : (definition.steps.map WorkflowStep.id).Nodup) (stepId : String) :
    stepId ∈ Engine.findPendingSteps execution definition ↔
      ∃ step, step ∈ definition.steps ∧ step.id = stepId ∧
        ∀ dep ∈ step.dependencies.getD [], dep ∈ Engine.getCompletedSteps execution := by
  unfold Engine.findPendingSteps
  simp only [List.mem_filter, List.mem_map]
  constructor
  · rintro ⟨⟨step0, hmem0, hid0⟩, hp⟩
    cases hfind : definition.steps.find? (fun s => s.id = stepId) with
    | none => rw [hfind] at hp; simp at hp
    | some step =>
      rw [hfind] at hp
      simp at hp
      have hstepmem := List.mem_of_find?_eq_some hfind
      have hstepid := List.find?_some hfind
      simp at hstepid
      refine ⟨step, hstepmem, hstepid, ?_⟩
      cases hdeps : step.dependencies with
      | none => simp
      | some deps =>
        rw [hdeps] at hp
        simp [List.all_eq_true] at hp
        simp only [Option.getD_some]
        intro dep hdep
        exact hp dep hdep
  · rintro ⟨step, hmem, hid, hdeps⟩
    refine ⟨⟨step, hmem, hid⟩, ?_⟩
    have hsome : (definition.steps.find? (fun s => s.id = stepId)).isSome := by
      rw [List.find?_isSome]
      exact ⟨step, hmem, by simp [hid]⟩
    cases hfind : definition.steps.find? (fun s => s.id = stepId) with
    | none => rw [hfind] at hsome; simp at hsome
    | some step1 =>
      have hmem1 := List.mem_of_find?_eq_some hfind
      have hid1 := List.find?_some hfind
      simp at hid1
      have heq : step1 = step := by
        apply List.inj_on_of_nodup_map hnd hmem1 hmem
        rw [hid1, hid]
      subst heq
      cases hdeps1 : step1.dependencies with
      | none => simp [hdeps1]
      | some deps =>
        simp [hdeps1, List.all_eq_true]
        intro dep hdep
        exact hdeps dep (by simp [hdeps1, hdep])

/-- C7 witness: the characterization instantiated with `wfLinear` (whose
step ids are unique), `execPending` and step id a. -/
theorem claim_C7_pending_steps_characterization_witness :
    ("a" ∈ Engine.findPendingSteps execPending wfLinear ↔
      ∃ step, step ∈ wfLinear.steps ∧ step.id = "a" ∧
        ∀ dep ∈ step.dependencies.getD [], dep ∈ Engine.getCompletedSteps execPending) :=
  claim_C7_pending_steps_characterization wfLinear execPending (by decide) "a"

/-- C9: whenever the registry lookup yields nothing or validation rejects
the definition, `executeWorkflow` raises before any execution record
exists: the ledger is unchanged and no notification and no step execution
happened. -/
theorem claim_C9_fail_before_any_record (registry : String → Option WorkflowDefinition)
    (runner : Engine.StepRunner) (newId : String) (startTime endTime cancelTime : Int)
    (sched : Nat → Bool) (fuelE fuelQ : Nat) (workflowId : String) (triggerEvent : Event)
    (context : Option Ctx) (ledger : List (String × WorkflowExecution))
    (h : ∀ d, registry workflowId = some d → (Registry.validateWorkflow d).isValid = false) :
    (let r := Engine.executeWorkflow registry runner newId startTime endTime cancelTime
        sched fuelE fuelQ workflowId triggerEvent context ledger
     r.error.isSome = true ∧ r.ledger = ledger ∧ r.events = [] ∧ r.trace = []) := by
  cases hreg : registry workflowId with
  | none => simp [Engine.executeWorkflow, hreg]
  | some d => simp [Engine.executeWorkflow, hreg, h d hreg]

/-- C9 witness: a registry that knows no workflow at all. -/
theorem claim_C9_fail_before_any_record_witness :
    (let r := Engine.executeWorkflow (fun _ => none) okRunner "e9" 0 1 2 (fun _ => false)
        3 3 "missing" { type := "evt" } none []
     r.error.isSome = true ∧ r.ledger = [] ∧ r.events = [] ∧ r.trace = []) :=
  claim_C9_fail_before_any_record (fun _ => none) okRunner "e9" 0 1 2 (fun _ => false) 3 3
    "missing" { type := "evt" } none [] (fun d hd => by simp at hd)

end FlowForge
